import Mathlib

/-!
Shallow embedding of `android/base/Log.cpp` (crowdmeter-android-emulator):
a process-local logging facility with a severity table, a growable
null-terminated message buffer (`LogStream`), typed formatting operators,
a pluggable output sink, and an errno-decorating message wrapper.

Byte strings are modelled as `List Char` (one `Char` per byte).  C strings
are modelled as NUL-free `List Char`, so `strlen` is `List.length`.
Machine integers are modelled as `Int`/`Nat`; `char` is modelled as a
signed 8-bit value (the x86 ABI used by the emulator host builds), so a
`char` argument ranges over `[-128, 127]`.
-/

namespace AndroidBaseLog

/-- Modelled from the spec: the `LogSeverity` enumeration comes from the
header `android/base/Log.h`, which is not part of the sources; the spec
describes it as the ordinal enumeration {INFO, WARNING, ERROR, FATAL}
ordered by increasing urgency, with `LOG_NUM_SEVERITIES` past the end
(the string table in `severityLevelToString` has exactly four entries). -/
def LOG_INFO : Int := 0

/-- Modelled from the spec: severity WARNING = 1. -/
def LOG_WARNING : Int := 1

/-- Modelled from the spec: severity ERROR = 2. -/
def LOG_ERROR : Int := 2

/-- Modelled from the spec: severity FATAL = 3. -/
def LOG_FATAL : Int := 3

/-- Modelled from the spec: number of named severities (the local string
array in `severityLevelToString` has exactly four entries). -/
def LOG_NUM_SEVERITIES : Int := 4

/-- The local array `kSeverityStrings` of `severityLevelToString`. -/
def kSeverityStrings : List String := ["INFO", "WARNING", "ERROR", "FATAL"]

/-- Embeds `severityLevelToString` (Log.cpp lines 32-39): in-range
severities index the string table, everything else maps to "UNKNOWN".
The `getD` default is unreachable because the index is range-checked. -/
def severityLevelToString (severity : Int) : String :=
  if 0 ≤ severity ∧ severity < LOG_NUM_SEVERITIES then
    kSeverityStrings.getD severity.toNat ""
  else "UNKNOWN"

/-- The NUL byte written by `append` as the terminator. -/
def nullChar : Char := Char.ofNat 0

/-- Stand-in value for bytes the C code leaves uninitialized (fresh
`realloc` storage past the written region, unwritten `snprintf` buffer
tail).  No theorem below depends on its value: every byte a claim reads
is written first. -/
def junkChar : Char := Char.ofNat 170

/-- The capacity-growth loop of `LogStream::append` (Log.cpp lines
199-201): `while (newCapacity < newSize) newCapacity += (newCapacity >> 2)
+ 32;`.  The C loop is an unconditional while; here it is indexed by fuel,
and fuel `newSize` is proven sufficient (`growCapacityFuel_ge` below:
the returned value already satisfies the loop's exit condition, since
every iteration increases the capacity by at least 32), so the fuel
never expires and this equals the while loop. -/
def growCapacityFuel : Nat → Nat → Nat → Nat
  | 0, newCapacity, _ => newCapacity
  | fuel + 1, newCapacity, newSize =>
    if newCapacity < newSize then
      growCapacityFuel fuel (newCapacity + (newCapacity >>> 2) + 32) newSize
    else newCapacity

/-- The value of `newCapacity` after the growth loop, starting from the
current capacity and iterating until it reaches `newSize`. -/
def growCapacity (mCapacity newSize : Nat) : Nat :=
  growCapacityFuel newSize mCapacity newSize

/-- Embeds `LogParams` (file, line, severity), the origin metadata of a
message record.  `file` is a C string (NUL-free char list). -/
structure LogParams where
  file : List Char
  lineno : Int
  severity : Int
deriving DecidableEq

/-- Embeds `LogStream`: origin params plus the growable message buffer.
`mString` models the heap array (length `mCapacity + 1` once allocated,
`[]` while the pointer is NULL), `mSize` the logical length, `mCapacity`
the allocated capacity. -/
structure LogStream where
  mParams : LogParams
  mString : List Char
  mSize : Nat
  mCapacity : Nat
deriving DecidableEq

/-- Embeds the `LogStream(file, lineno, severity)` constructor (Log.cpp
lines 115-119): NULL string, zero size and capacity. -/
def LogStream.init (file : List Char) (lineno : Int) (severity : Int) : LogStream :=
  ⟨⟨file, lineno, severity⟩, [], 0, 0⟩

/-- The capacity-ensuring phase of `LogStream::append` (Log.cpp lines
197-205): when the new size exceeds the capacity, run the growth loop and
`realloc` to `newCapacity + 1` bytes, preserving existing bytes; the new
storage past the old allocation is uninitialized (modelled as
`junkChar`). -/
def LogStream.growIfNeeded (s : LogStream) (newSize : Nat) : LogStream :=
  if s.mCapacity < newSize then
    { s with
        mString := s.mString ++
          List.replicate (growCapacity s.mCapacity newSize + 1 - s.mString.length) junkChar,
        mCapacity := growCapacity s.mCapacity newSize }
  else s

/-- The write phase of `LogStream::append` (Log.cpp lines 207-209):
`memcpy(mString + mSize, str, len); mSize += len; mString[mSize] = 0;`
modelled as overwriting the array slice at offsets
`[mSize, mSize + len]`. -/
def LogStream.writeBytes (s : LogStream) (str : List Char) : LogStream :=
  { s with
      mString := s.mString.take s.mSize ++ str ++
        nullChar :: s.mString.drop (s.mSize + str.length + 1),
      mSize := s.mSize + str.length }

/-- Embeds `LogStream::append(const char* str, size_t len)` (Log.cpp
lines 194-210): no-op when `!len || len > INT32_MAX`; otherwise ensure
capacity, copy the bytes, bump the size and null-terminate. -/
def LogStream.appendBytes (s : LogStream) (str : List Char) : LogStream :=
  if str.length = 0 ∨ 2147483647 < str.length then s
  else (s.growIfNeeded (s.mSize + str.length)).writeBytes str

/-- Embeds `LogStream::append(const char* str)` (Log.cpp lines 189-192):
`if (str && str[0]) append(str, strlen(str));`.  A NULL pointer is
`none`; `str[0] != 0` is `cs ≠ []` since C strings are NUL-free here. -/
def LogStream.appendCStr (s : LogStream) (str : Option (List Char)) : LogStream :=
  match str with
  | none => s
  | some cs => if cs = [] then s else s.appendBytes cs

/-- The first `bufSize` bytes of a `bufSize`-byte buffer after
`snprintf(buf, bufSize, ...)` whose full (untruncated) formatted text is
`s`: at most `bufSize - 1` characters are stored, then a terminating NUL;
any remaining bytes keep their uninitialized contents.  The C `snprintf`
returns `s.length` (the untruncated length) even when it truncated. -/
def snprintfBytes (bufSize : Nat) (s : List Char) : List Char :=
  s.take (bufSize - 1) ++ nullChar :: List.replicate (bufSize - 1 - s.length) junkChar

/-- Locale-independent decimal digits of a natural number, most
significant first (the output of `%u`/`%lu`/`%llu`). -/
def natDecimal (n : Nat) : List Char := Nat.toDigits 10 n

/-- Decimal rendering of a signed integer (the output of
`%d`/`%ld`/`%lld`): a minus sign before the digits for negatives. -/
def intDecimal (v : Int) : List Char :=
  if v < 0 then '-' :: natDecimal (-v).toNat else natDecimal v.toNat

/-- Lowercase hexadecimal digits of `n` padded to width 2 (the output of
`%02x`). -/
def hexPad2 (n : Nat) : List Char :=
  if (Nat.toDigits 16 n).length < 2 then '0' :: Nat.toDigits 16 n
  else Nat.toDigits 16 n

/-- Embeds `LogStream::operator<<(char ch)` (Log.cpp lines 129-138).
`ch` is the signed 8-bit value of the character.  Printable ASCII is
appended verbatim.  Otherwise `snprintf(temp, 5, "\x7b\x7d", ch)` is
called with format backslash-x-percent-02x: the format argument is the
integer promotion of `ch`, i.e. its value modulo 2^32 as rendered by
`%02x` (unsigned), and then `append(temp, 4)` copies the first four bytes
of the 5-byte buffer. -/
def LogStream.streamChar (s : LogStream) (ch : Int) : LogStream :=
  if 32 ≤ ch ∧ ch < 127 then
    s.appendBytes [Char.ofNat ch.toNat]
  else
    s.appendBytes ((snprintfBytes 5 ('\\' :: 'x' :: hexPad2 ((ch % 4294967296).toNat))).take 4)

/-- Embeds `LogStream::operator<<(int v)` (Log.cpp lines 147-152):
`snprintf(temp, 20, "%d", v)` then `append(temp, ret)` where `ret` is
snprintf's return value (the untruncated length). -/
def LogStream.streamInt (s : LogStream) (v : Int) : LogStream :=
  s.appendBytes ((snprintfBytes 20 (intDecimal v)).take (intDecimal v).length)

/-- Embeds `LogStream::operator<<(unsigned v)` (Log.cpp lines 154-159):
`snprintf(temp, 20, "%u", v)` then `append(temp, ret)`. -/
def LogStream.streamUnsigned (s : LogStream) (v : Nat) : LogStream :=
  s.appendBytes ((snprintfBytes 20 (natDecimal v)).take (natDecimal v).length)

/-- Embeds `LogStream::operator<<(long v)` (Log.cpp lines 161-166), with
`long` 64-bit (LP64): `snprintf(temp, 20, "%ld", v)` then
`append(temp, ret)`. -/
def LogStream.streamLong (s : LogStream) (v : Int) : LogStream :=
  s.appendBytes ((snprintfBytes 20 (intDecimal v)).take (intDecimal v).length)

/-- Embeds `LogStream::operator<<(unsigned long v)` (Log.cpp lines
168-173): `snprintf(temp, 20, "%lu", v)` then `append(temp, ret)`. -/
def LogStream.streamULong (s : LogStream) (v : Nat) : LogStream :=
  s.appendBytes ((snprintfBytes 20 (natDecimal v)).take (natDecimal v).length)

/-- Embeds `LogStream::operator<<(long long v)` (Log.cpp lines 175-180):
`snprintf(temp, 20, "%lld", v)` then `append(temp, ret)`. -/
def LogStream.streamLongLong (s : LogStream) (v : Int) : LogStream :=
  s.appendBytes ((snprintfBytes 20 (intDecimal v)).take (intDecimal v).length)

/-- Embeds `LogStream::operator<<(unsigned long long v)` (Log.cpp lines
182-187): `snprintf(temp, 20, "%llu", v)` then `append(temp, ret)`. -/
def LogStream.streamULongLong (s : LogStream) (v : Nat) : LogStream :=
  s.appendBytes ((snprintfBytes 20 (natDecimal v)).take (natDecimal v).length)

/-- Observable effect of one dispatch: either the record is forwarded to
an installed sink (sinks are identified abstractly by a `Nat`), or the
formatted line is written to standard error and the process optionally
terminates with the given exit status. -/
inductive DispatchOutcome where
  | toSink (sink : Nat) (params : LogParams) (message : List Char) (messageLen : Nat)
  | toStderr (bytes : List Char) (exitCode : Option Nat)
deriving DecidableEq

/-- The exit status a dispatch terminates the process with (`none` when
execution continues). -/
def DispatchOutcome.exitCode : DispatchOutcome → Option Nat
  | .toSink _ _ _ _ => none
  | .toStderr _ e => e

/-- The bytes a dispatch wrote to standard error (`none` when a sink
handled the record). -/
def DispatchOutcome.stderrBytes : DispatchOutcome → Option (List Char)
  | .toSink _ _ _ _ => none
  | .toStderr bytes _ => some bytes

/-- The narrowing conversion `int(messageLen)` at Log.cpp line 50:
a 64-bit `size_t` value reduced modulo 2^32 and reinterpreted as a
two's-complement signed 32-bit `int` (the behavior of every supported
compiler for this out-of-range conversion). -/
def intOfSizeT (n : Nat) : Int :=
  if n % 4294967296 < 2147483648 then ((n % 4294967296 : Nat) : Int)
  else ((n % 4294967296 : Nat) : Int) - 4294967296

/-- Embeds `defaultLogMessage` (Log.cpp lines 42-62):
`fprintf(stderr, "%s:%s:%d:%.*s\n", ...)` followed by a flush, then
`exit(1)` when `severity >= LOG_FATAL`.  The `%.*s` precision argument
is `int(messageLen)` — note the narrowing cast: a non-negative precision
prints at most that many bytes of `message`, stopping at an embedded
NUL; a negative precision argument makes `printf` act as though the
precision were omitted, printing up to the NUL only. -/
def defaultLogMessage (params : LogParams) (message : List Char) (messageLen : Nat) :
    DispatchOutcome :=
  DispatchOutcome.toStderr
    ((severityLevelToString params.severity).toList ++
      ':' :: params.file ++
      ':' :: intDecimal params.lineno ++
      ':' :: (if intOfSizeT messageLen < 0 then
                message.takeWhile (fun c => c ≠ nullChar)
              else
                (message.take (intOfSizeT messageLen).toNat).takeWhile
                  (fun c => c ≠ nullChar)) ++ ['\n'])
    (if LOG_FATAL ≤ params.severity then some 1 else none)

/-- Embeds `logMessage` (Log.cpp lines 64-72): forward to the installed
sink `gLogOutput` when there is one, otherwise take the default
standard-error path. -/
def logMessage (gLogOutput : Option Nat) (params : LogParams) (message : List Char)
    (messageLen : Nat) : DispatchOutcome :=
  match gLogOutput with
  | some out => DispatchOutcome.toSink out params message messageLen
  | none => defaultLogMessage params message messageLen

/-- Embeds the `LogMessage` destructor (Log.cpp lines 216-221): dispatch
the stream's params, buffer pointer and size. -/
def LogMessage.dispatch (gLogOutput : Option Nat) (mStream : LogStream) : DispatchOutcome :=
  logMessage gLogOutput mStream.mParams mStream.mString mStream.mSize

/-- Embeds `testing::LogOutput::setNewOutput` (Log.cpp lines 249-253):
swap the process-wide sink pointer, returning the pair (previous sink,
new value of the global). -/
def setNewOutput (gLogOutput : Option Nat) (newOutput : Option Nat) :
    Option Nat × Option Nat :=
  (gLogOutput, newOutput)

/-- Embeds `ErrnoLogMessage`: a message record plus the errno value
captured at construction. -/
structure ErrnoLogMessage where
  mStream : LogStream
  mErrno : Int

/-- Embeds the `ErrnoLogMessage` destructor (Log.cpp lines 234-242).
Modelled from the spec: the header's `operator<<(const char*)` (not in
the sources) delegates to `LogStream::append(const char*)`.  `strerror`
is the platform's error-description function, an arbitrary external
function returning a C string; `strerrorEffect` and `dispatchEffect`
model the arbitrary mutations the C library calls may apply to the
ambient `errno`, which the destructor's final `errno = mErrno;`
overwrites.  The result is the dispatch outcome paired with the final
ambient errno value. -/
def ErrnoLogMessage.destruct (em : ErrnoLogMessage) (strerror : Int → List Char)
    (strerrorEffect dispatchEffect : Int → Int) (gLogOutput : Option Nat)
    (errno0 : Int) : DispatchOutcome × Int :=
  let errno1 := strerrorEffect errno0
  let s := (em.mStream.appendCStr (some ("Error message: ".toList))).appendCStr
    (some (strerror em.mErrno))
  let out := logMessage gLogOutput s.mParams s.mString s.mSize
  let _errno2 := dispatchEffect errno1
  (out, em.mErrno)

/-- Folding a sequence of byte-chunk appends over a stream. -/
def appendChunks (s : LogStream) (chunks : List (List Char)) : LogStream :=
  chunks.foldl LogStream.appendBytes s

/-- Well-formedness of a stream that has accumulated exactly the bytes
`acc` since construction: the size is `acc.length` and fits the
capacity, and the heap array is either still NULL (nothing ever
appended) or holds `acc`, the terminating NUL, and `mCapacity - acc.length`
trailing bytes. -/
def LogStream.wf (s : LogStream) (acc : List Char) : Prop :=
  s.mSize = acc.length ∧ s.mSize ≤ s.mCapacity ∧
    ((s.mCapacity = 0 ∧ s.mString = []) ∨
      (∃ tail, s.mString = acc ++ nullChar :: tail ∧
        s.mString.length = s.mCapacity + 1))

/-! ## Helper lemmas -/

/-- Each iteration of the growth loop adds at least 32, so fuel `need`
(32 per iteration, far more than one unit of progress per iteration)
suffices: whenever `need ≤ cap + 32 * fuel`, the loop reaches a capacity
of at least `need` before the fuel runs out. -/
theorem growCapacityFuel_ge (fuel : Nat) :
    ∀ cap need : Nat, need ≤ cap + 32 * fuel → need ≤ growCapacityFuel fuel cap need := by
  induction fuel with
  | zero =>
    intro cap need h
    simpa [growCapacityFuel] using h
  | succ fuel ih =>
    intro cap need h
    rw [growCapacityFuel]
    by_cases hlt : cap < need
    · rw [if_pos hlt]
      apply ih
      have : cap >>> 2 = cap / 4 := Nat.shiftRight_eq_div_pow cap 2
      omega
    · rw [if_neg hlt]
      omega

/-- The growth loop never decreases the capacity. -/
theorem growCapacityFuel_le (fuel : Nat) :
    ∀ cap need : Nat, cap ≤ growCapacityFuel fuel cap need := by
  induction fuel with
  | zero => intro cap need; simp [growCapacityFuel]
  | succ fuel ih =>
    intro cap need
    rw [growCapacityFuel]
    by_cases hlt : cap < need
    · rw [if_pos hlt]
      exact Nat.le_trans (by omega) (ih (cap + (cap >>> 2) + 32) need)
    · rw [if_neg hlt]

/-- The growth loop reaches the requested size. -/
theorem growCapacity_ge (cap need : Nat) : need ≤ growCapacity cap need := by
  exact growCapacityFuel_ge need cap need (by omega)

/-- The growth loop starts from the current capacity and only grows. -/
theorem growCapacity_le (cap need : Nat) : cap ≤ growCapacity cap need :=
  growCapacityFuel_le need cap need

/-- `wf` gives back the accumulated bytes as the `mSize`-prefix of the
heap array. -/
theorem LogStream.wf_take {s : LogStream} {acc : List Char} (h : s.wf acc) :
    s.mSize = acc.length ∧ s.mString.take s.mSize = acc := by
  obtain ⟨hsize, hle, hcase⟩ := h
  refine ⟨hsize, ?_⟩
  rcases hcase with ⟨hcap, hstr⟩ | ⟨tail, hstr, _⟩
  · have : acc = [] := by
      have : acc.length = 0 := by omega
      exact List.length_eq_zero.mp this
    simp [hstr, this]
  · rw [hstr, hsize, List.take_left]

/-- The capacity-ensuring phase: starting from a well-formed stream and a
requested size beyond the current logical size, it preserves params, size
and accumulated prefix, and afterwards the array has `mCapacity + 1`
bytes with `mCapacity` at least the requested size. -/
theorem LogStream.growIfNeeded_spec {s : LogStream} {acc : List Char} (need : Nat)
    (hwf : s.wf acc) (hpos : s.mSize < need) :
    (s.growIfNeeded need).mSize = s.mSize ∧
    (s.growIfNeeded need).mParams = s.mParams ∧
    (s.growIfNeeded need).mString.length = (s.growIfNeeded need).mCapacity + 1 ∧
    need ≤ (s.growIfNeeded need).mCapacity ∧
    (s.growIfNeeded need).mString.take s.mSize = acc := by
  obtain ⟨hsize, hle, hcase⟩ := hwf
  unfold LogStream.growIfNeeded
  by_cases hgrow : s.mCapacity < need
  · rw [if_pos hgrow]
    dsimp only
    have hge := growCapacity_ge s.mCapacity need
    have hmono := growCapacity_le s.mCapacity need
    rcases hcase with ⟨hcap, hstr⟩ | ⟨tail, hstr, hlen⟩
    · have hacc : acc = [] := by
        have : acc.length = 0 := by omega
        exact List.length_eq_zero.mp this
      have hm0 : s.mSize = 0 := by omega
      refine ⟨rfl, rfl, ?_, hge, ?_⟩
      · simp [hstr]
      · simp [hstr, hacc, hm0]
    · refine ⟨rfl, rfl, ?_, hge, ?_⟩
      · rw [List.length_append, List.length_replicate]
        omega
      · rw [List.take_append_of_le_length (by omega), hstr, hsize, List.take_left]
  · rw [if_neg hgrow]
    rcases hcase with ⟨hcap, hstr⟩ | ⟨tail, hstr, hlen⟩
    · omega
    · refine ⟨rfl, rfl, hlen, by omega, ?_⟩
      rw [hstr, hsize, List.take_left]

/-- The write phase: with enough allocated storage, it installs the new
bytes and the terminating NUL right after the accumulated prefix,
preserving the array length, params and capacity. -/
theorem LogStream.writeBytes_spec {g : LogStream} {acc str : List Char}
    (hpre : g.mString.take g.mSize = acc) (hsize : g.mSize = acc.length)
    (hlen : g.mString.length = g.mCapacity + 1)
    (hcap : g.mSize + str.length ≤ g.mCapacity) :
    ∃ tail, (g.writeBytes str).mString = acc ++ str ++ nullChar :: tail ∧
      (g.writeBytes str).mString.length = g.mString.length ∧
      (g.writeBytes str).mSize = acc.length + str.length ∧
      (g.writeBytes str).mCapacity = g.mCapacity ∧
      (g.writeBytes str).mParams = g.mParams := by
  refine ⟨g.mString.drop (g.mSize + str.length + 1), ?_, ?_, ?_, rfl, rfl⟩
  · show g.mString.take g.mSize ++ str ++ nullChar :: g.mString.drop (g.mSize + str.length + 1) =
      acc ++ str ++ nullChar :: g.mString.drop (g.mSize + str.length + 1)
    rw [hpre]
  · show (g.mString.take g.mSize ++ str ++
      nullChar :: g.mString.drop (g.mSize + str.length + 1)).length = g.mString.length
    simp only [List.length_append, List.length_take, List.length_cons, List.length_drop]
    omega
  · show g.mSize + str.length = acc.length + str.length
    omega

/-- One `append` call preserves well-formedness, extending the
accumulated bytes, provided the chunk is within the size ceiling. -/
theorem LogStream.wf_appendBytes {s : LogStream} {acc str : List Char}
    (hwf : s.wf acc) (hlen : str.length ≤ 2147483647) :
    (s.appendBytes str).wf (acc ++ str) := by
  by_cases hnil : str.length = 0
  · have : str = [] := List.length_eq_zero.mp hnil
    subst this
    simpa [LogStream.appendBytes] using hwf
  · have hcond : ¬ (str.length = 0 ∨ 2147483647 < str.length) := by omega
    unfold LogStream.appendBytes
    rw [if_neg hcond]
    have hpos : s.mSize < s.mSize + str.length := by omega
    obtain ⟨hsz, hpar, harr, hge, hpre⟩ := LogStream.growIfNeeded_spec (s.mSize + str.length) hwf hpos
    have hsize0 : s.mSize = acc.length := (LogStream.wf_take hwf).1
    obtain ⟨tail, hstr, hlen2, hsz2, hcap2, _⟩ :=
      @LogStream.writeBytes_spec (s.growIfNeeded (s.mSize + str.length)) acc str
        (by rw [hsz]; exact hpre) (by omega) harr (by omega)
    refine ⟨?_, ?_, Or.inr ⟨tail, hstr, ?_⟩⟩
    · rw [hsz2, List.length_append]
    · rw [hsz2, hcap2]
      have : acc.length + str.length = s.mSize + str.length := by omega
      omega
    · rw [hlen2, harr, hcap2]

/-- Folding a list of chunk appends preserves well-formedness. -/
theorem LogStream.wf_appendChunks {s : LogStream} {acc : List Char}
    (chunks : List (List Char)) (hwf : s.wf acc)
    (hlen : ∀ c ∈ chunks, c.length ≤ 2147483647) :
    (appendChunks s chunks).wf (acc ++ chunks.flatten) := by
  induction chunks generalizing s acc with
  | nil => simpa [appendChunks] using hwf
  | cons c cs ih =>
    have h1 : (s.appendBytes c).wf (acc ++ c) :=
      LogStream.wf_appendBytes hwf (hlen c (by simp))
    have h2 := ih h1 (fun d hd => hlen d (by simp [hd]))
    simpa [appendChunks, List.flatten, List.append_assoc] using h2

/-- A fresh stream is well-formed with no accumulated bytes. -/
theorem LogStream.wf_init (file : List Char) (lineno severity : Int) :
    (LogStream.init file lineno severity).wf [] :=
  ⟨rfl, Nat.le_refl 0, Or.inl ⟨rfl, rfl⟩⟩

/-- The C-string append preserves well-formedness like the byte form. -/
theorem LogStream.wf_appendCStr {s : LogStream} {acc cs : List Char}
    (hwf : s.wf acc) (hlen : cs.length ≤ 2147483647) :
    (s.appendCStr (some cs)).wf (acc ++ cs) := by
  by_cases h : cs = []
  · subst h
    simpa [LogStream.appendCStr] using hwf
  · simp only [LogStream.appendCStr]
    rw [if_neg h]
    exact LogStream.wf_appendBytes hwf hlen

/-- `append` never touches the origin params. -/
theorem LogStream.appendBytes_mParams (s : LogStream) (str : List Char) :
    (s.appendBytes str).mParams = s.mParams := by
  unfold LogStream.appendBytes LogStream.writeBytes LogStream.growIfNeeded
  by_cases h1 : str.length = 0 ∨ 2147483647 < str.length
  · rw [if_pos h1]
  · rw [if_neg h1]
    by_cases h2 : s.mCapacity < s.mSize + str.length
    · rw [if_pos h2]
    · rw [if_neg h2]

/-- The C-string append never touches the origin params either. -/
theorem LogStream.appendCStr_mParams (s : LogStream) (cs : Option (List Char)) :
    (s.appendCStr cs).mParams = s.mParams := by
  match cs with
  | none => rfl
  | some l =>
    simp only [LogStream.appendCStr]
    by_cases h : l = []
    · rw [if_pos h]
    · rw [if_neg h]
      exact LogStream.appendBytes_mParams s l

/-! ## Claims -/

/-- C8: for every severity in {INFO, WARNING, ERROR, FATAL} the
severity-to-string function returns exactly the matching uppercase
literal, and for every value outside that set (negative values such as
-1 and large values such as 99 included) it returns exactly "UNKNOWN".
Purity and totality hold by construction: it is a Lean function. -/
theorem claim_C8 :
    severityLevelToString LOG_INFO = "INFO" ∧
    severityLevelToString LOG_WARNING = "WARNING" ∧
    severityLevelToString LOG_ERROR = "ERROR" ∧
    severityLevelToString LOG_FATAL = "FATAL" ∧
    ∀ severity : Int, (severity < LOG_INFO ∨ LOG_NUM_SEVERITIES ≤ severity) →
      severityLevelToString severity = "UNKNOWN" := by
  refine ⟨by decide, by decide, by decide, by decide, ?_⟩
  intro severity h
  unfold LOG_INFO LOG_NUM_SEVERITIES at h
  unfold severityLevelToString LOG_NUM_SEVERITIES
  rw [if_neg]
  omega

/-- Witness for C8 at the out-of-range inputs -1 and 99. -/
theorem claim_C8_witness :
    severityLevelToString (-1) = "UNKNOWN" ∧ severityLevelToString 99 = "UNKNOWN" :=
  ⟨claim_C8.2.2.2.2 (-1) (Or.inl (by decide)),
   claim_C8.2.2.2.2 99 (Or.inr (by decide))⟩

/-- C10: for every current capacity and every append length `len` with
`0 < len ≤ 2^31 - 1`, the growth loop `newCapacity += (newCapacity >> 2)
+ 32` starting from the current capacity reaches a value of at least
`mSize + len` (each iteration adds at least 32, and the fuel argument of
`growCapacityFuel` is proven never to run out), so `LogStream::append`
is a total terminating function — as witnessed by `appendBytes` being a
total Lean function built on `growCapacity`. -/
theorem claim_C10 (mCapacity mSize len : Nat) (h1 : 0 < len)
    (h2 : len ≤ 2147483647) :
    mSize + len ≤ growCapacity mCapacity (mSize + len) ∧
    mCapacity ≤ growCapacity mCapacity (mSize + len) :=
  ⟨growCapacity_ge mCapacity (mSize + len), growCapacity_le mCapacity (mSize + len)⟩

/-- Witness for C10 at capacity 0, size 0, length 1. -/
theorem claim_C10_witness :
    (0 : Nat) < 1 ∧ 1 ≤ growCapacity 0 1 ∧ 0 ≤ growCapacity 0 1 :=
  ⟨by decide, (claim_C10 0 0 1 (by decide) (by decide)).1,
    (claim_C10 0 0 1 (by decide) (by decide)).2⟩

/-- C9: an `append(bytes, length)` whose length is zero or exceeds the
32-bit-signed ceiling, and an `append(C-string)` whose argument is NULL
or empty, leave the stream (length, capacity and contents) entirely
unchanged. -/
theorem claim_C9 (s : LogStream) (str : List Char) (cstr : Option (List Char)) :
    (str.length = 0 ∨ 2147483647 < str.length → s.appendBytes str = s) ∧
    (cstr = none ∨ cstr = some [] → s.appendCStr cstr = s) := by
  constructor
  · intro h
    unfold LogStream.appendBytes
    rw [if_pos h]
  · intro h
    rcases h with h | h <;> simp [h, LogStream.appendCStr]

/-- Witness for C9: an empty chunk and a NULL C string on a concrete
buffer. -/
theorem claim_C9_witness :
    (LogStream.init [] 0 0).appendBytes [] = LogStream.init [] 0 0 ∧
    (LogStream.init [] 0 0).appendCStr none = LogStream.init [] 0 0 :=
  ⟨(claim_C9 (LogStream.init [] 0 0) [] none).1 (Or.inl (by decide)),
   (claim_C9 (LogStream.init [] 0 0) [] none).2 (Or.inl rfl)⟩

/-- C7: the sink-installation operation swaps the process-wide sink
pointer and returns the previously installed sink (NULL when none):
starting with no sink, installing S1 then S2 returns NULL then S1, and
every dispatch performed after both installs forwards its params,
message and length verbatim to S2 only. -/
theorem claim_C7 (s1 s2 : Nat) (params : LogParams) (message : List Char)
    (messageLen : Nat) :
    (setNewOutput none (some s1)).1 = none ∧
    (setNewOutput (setNewOutput none (some s1)).2 (some s2)).1 = some s1 ∧
    logMessage (setNewOutput (setNewOutput none (some s1)).2 (some s2)).2
        params message messageLen =
      DispatchOutcome.toSink s2 params message messageLen :=
  ⟨rfl, rfl, rfl⟩

/-- C1 (amended): a dispatched FATAL record terminates the process with
exit status 1 only on the default standard-error path (no sink
installed), after the formatted line has been written; when a custom
sink is installed, dispatch forwards the record to the sink and does not
terminate the process. -/
theorem claim_C1 (params : LogParams) (message : List Char) (messageLen : Nat)
    (h : LOG_FATAL ≤ params.severity) :
    (logMessage none params message messageLen).exitCode = some 1 ∧
    ∀ sink : Nat, logMessage (some sink) params message messageLen =
      DispatchOutcome.toSink sink params message messageLen := by
  constructor
  · unfold logMessage defaultLogMessage DispatchOutcome.exitCode
    rw [if_pos h]
  · intro sink
    rfl

/-- Witness for C1 at a concrete FATAL record. -/
theorem claim_C1_witness :
    (logMessage none ⟨"f.cc".toList, 10, 3⟩ [] 0).exitCode = some 1 ∧
    ∀ sink : Nat, logMessage (some sink) ⟨"f.cc".toList, 10, 3⟩ [] 0 =
      DispatchOutcome.toSink sink ⟨"f.cc".toList, 10, 3⟩ [] 0 :=
  claim_C1 ⟨"f.cc".toList, 10, 3⟩ [] 0 (by decide)

/-- Counterexample to C1 as stated: with a custom sink installed, the
dispatch of a FATAL record does not terminate the process — the
`exit(1)` call sits inside `defaultLogMessage` only, which is bypassed
when `gLogOutput` is set. -/
theorem claim_C1_cex :
    (logMessage (some 7) ⟨"f.cc".toList, 10, 3⟩ [] 0).exitCode ≠ some 1 := by
  decide

/-- C3 (amended): for every sequence of byte-chunk appends on a fresh
buffer, each chunk within the 32-bit-signed ceiling and with positive
total length L, afterwards the logical length equals L, the byte at
index L is the NUL byte, and all appended bytes are preserved in order —
regardless of chunk sizes and of how many growth reallocations occurred.
(The positivity hypothesis is forced: with nothing appended the buffer
pointer is still NULL, so no byte exists at index 0; and an oversized
chunk is silently dropped, see the counterexample.) -/
theorem claim_C3 (file : List Char) (lineno severity : Int)
    (chunks : List (List Char))
    (hlen : ∀ c ∈ chunks, c.length ≤ 2147483647)
    (hpos : 0 < chunks.flatten.length) :
    (appendChunks (LogStream.init file lineno severity) chunks).mSize =
      chunks.flatten.length ∧
    (appendChunks (LogStream.init file lineno severity) chunks).mString.take
      chunks.flatten.length = chunks.flatten ∧
    (appendChunks (LogStream.init file lineno severity) chunks).mString[chunks.flatten.length]? = some nullChar := by
  have hwf := LogStream.wf_appendChunks chunks
    (LogStream.wf_init file lineno severity) hlen
  rw [List.nil_append] at hwf
  obtain ⟨hsize, hle, hcase⟩ := hwf
  rcases hcase with ⟨hcap, hstr⟩ | ⟨tail, hstr, hlen2⟩
  · omega
  · refine ⟨hsize, ?_, ?_⟩
    · rw [hstr, List.take_left]
    · rw [hstr, List.getElem?_append_right (by omega)]
      simp [hsize]

/-- Witness for C3 at the chunk sequence [['A'], ['B','C']]. -/
theorem claim_C3_witness :
    (appendChunks (LogStream.init "f.cc".toList 10 1) [['A'], ['B', 'C']]).mSize =
      ([['A'], ['B', 'C']] : List (List Char)).flatten.length ∧
    (appendChunks (LogStream.init "f.cc".toList 10 1) [['A'], ['B', 'C']]).mString.take
      ([['A'], ['B', 'C']] : List (List Char)).flatten.length =
      ([['A'], ['B', 'C']] : List (List Char)).flatten ∧
    (appendChunks (LogStream.init "f.cc".toList 10 1)
      [['A'], ['B', 'C']]).mString[([['A'], ['B', 'C']] : List (List Char)).flatten.length]? = some nullChar :=
  claim_C3 "f.cc".toList 10 1 [['A'], ['B', 'C']] (by decide) (by decide)

/-- Counterexample to C3 as stated: (a) after zero appends the buffer
pointer is still NULL, so there is no byte — let alone a NUL byte — at
index L = 0; (b) a single chunk of length 2^31 (beyond the
`INT32_MAX` ceiling) is silently dropped, so the final length is 0, not
the total appended length 2^31. -/
theorem claim_C3_cex :
    (appendChunks (LogStream.init [] 0 0) []).mString[(0 : Nat)]? ≠ some nullChar ∧
    (appendChunks (LogStream.init [] 0 0) [List.replicate 2147483648 'a']).mSize ≠
      (List.replicate 2147483648 'a').length := by
  constructor
  · decide
  · have hlen : (List.replicate 2147483648 'a').length = 2147483648 :=
      List.length_replicate 2147483648 'a'
    have hnoop : (LogStream.init [] 0 0).appendBytes (List.replicate 2147483648 'a') =
        LogStream.init [] 0 0 := by
      unfold LogStream.appendBytes
      rw [if_pos]
      rw [hlen]
      norm_num
    have hfold : appendChunks (LogStream.init [] 0 0) [List.replicate 2147483648 'a'] =
        (LogStream.init [] 0 0).appendBytes (List.replicate 2147483648 'a') := by
      unfold appendChunks
      rw [List.foldl_cons, List.foldl_nil]
    rw [hfold, hnoop, hlen]
    show (0 : Nat) ≠ 2147483648
    omega

/-- C2 (amended): a record dispatched with no sink installed, whose
length is at most INT32_MAX (so the `int(messageLen)` precision cast is
exact) and whose first `messageLen` bytes are NUL-free, writes exactly
the severity name, file, line and message joined by single colons and a
trailing newline; in particular the record built from file "f.cc", line
10, severity WARNING, streamed with integer 42 and string "x", writes
exactly "WARNING:f.cc:10:42x\n".  (Both hypotheses are forced, see the
counterexample: an embedded NUL stops `%.*s` early, and a length of
2^32 wraps the precision to 0.) -/
theorem claim_C2 (params : LogParams) (message : List Char) (messageLen : Nat)
    (hlen : messageLen ≤ 2147483647)
    (h : nullChar ∉ message.take messageLen) :
    (logMessage none params message messageLen).stderrBytes =
      some ((severityLevelToString params.severity).toList ++
        ':' :: params.file ++ ':' :: intDecimal params.lineno ++
        ':' :: message.take messageLen ++ ['\n']) ∧
    (LogMessage.dispatch none
        (((LogStream.init "f.cc".toList 10 LOG_WARNING).streamInt 42).appendCStr
          (some "x".toList))).stderrBytes = some "WARNING:f.cc:10:42x\n".toList := by
  constructor
  · have htw : (message.take messageLen).takeWhile (fun c => c ≠ nullChar) =
        message.take messageLen := by
      rw [List.takeWhile_eq_self_iff]
      intro x hx
      simp only [ne_eq, decide_eq_true_eq]
      intro hx0
      exact h (hx0 ▸ hx)
    have hcast : intOfSizeT messageLen = (messageLen : Int) := by
      unfold intOfSizeT
      rw [Nat.mod_eq_of_lt (by omega)]
      rw [if_pos (by omega)]
    have hnneg : ¬ intOfSizeT messageLen < 0 := by
      rw [hcast]
      omega
    unfold logMessage defaultLogMessage DispatchOutcome.stderrBytes
    rw [if_neg hnneg, hcast, Int.toNat_natCast, htw]
  · decide

/-- Witness for C2 at the NUL-free message "42x" with length 3. -/
theorem claim_C2_witness :
    (logMessage none ⟨"f.cc".toList, 10, 1⟩ "42x".toList 3).stderrBytes =
      some ((severityLevelToString 1).toList ++
        ':' :: "f.cc".toList ++ ':' :: intDecimal 10 ++
        ':' :: "42x".toList.take 3 ++ ['\n']) ∧
    (LogMessage.dispatch none
        (((LogStream.init "f.cc".toList 10 LOG_WARNING).streamInt 42).appendCStr
          (some "x".toList))).stderrBytes = some "WARNING:f.cc:10:42x\n".toList :=
  claim_C2 ⟨"f.cc".toList, 10, 1⟩ "42x".toList 3 (by decide) (by decide)

/-- Counterexample to C2 as stated, in two parts.  (a) A record whose
message bytes contain an embedded NUL (obtainable through the public
streaming interface, here by streaming the unsigned 64-bit value
18446744073709551615, whose 20-character decimal text is truncated by
`snprintf` into `char temp[20]`, leaving 19 digits plus a NUL that
`append` then copies) is printed truncated at that NUL by `%.*s`.
(b) A record of length 2^32 — reachable, e.g. by two appends of
2147483647 bytes and one of 2 bytes, each within the per-call ceiling —
is printed with an empty message: the `int(messageLen)` precision
argument wraps to 0.  In both cases the bytes written to standard error
are not severity:file:line:message-bytes:newline. -/
theorem claim_C2_cex :
    (LogMessage.dispatch none
        ((LogStream.init "f.cc".toList 10 LOG_INFO).streamULongLong
          18446744073709551615)).stderrBytes ≠
      some ("INFO:f.cc:10:".toList ++
        ((LogStream.init "f.cc".toList 10 LOG_INFO).streamULongLong
          18446744073709551615).mString.take
          ((LogStream.init "f.cc".toList 10 LOG_INFO).streamULongLong
            18446744073709551615).mSize ++ ['\n']) ∧
    (logMessage none ⟨"f.cc".toList, 10, 0⟩ (List.replicate 4294967296 'a')
        4294967296).stderrBytes ≠
      some ("INFO:f.cc:10:".toList ++ List.replicate 4294967296 'a' ++ ['\n']) := by
  constructor
  · decide
  · intro hcontra
    have hprec : intOfSizeT 4294967296 = 0 := by decide
    have htake : (List.replicate 4294967296 'a').take (intOfSizeT 4294967296).toNat =
        [] := by
      rw [hprec, Int.toNat_zero, List.take_zero]
    have hout : (logMessage none ⟨"f.cc".toList, 10, 0⟩
        (List.replicate 4294967296 'a') 4294967296).stderrBytes =
        some "INFO:f.cc:10:\n".toList := by
      show (defaultLogMessage ⟨"f.cc".toList, 10, 0⟩
        (List.replicate 4294967296 'a') 4294967296).stderrBytes =
        some "INFO:f.cc:10:\n".toList
      unfold defaultLogMessage
      rw [if_neg (by rw [hprec]; omega), htake]
      decide
    have heq := Option.some.inj (hout.symm.trans hcontra)
    have hlen := congrArg List.length heq
    rw [List.length_append, List.length_append, List.length_replicate,
      show ("INFO:f.cc:10:\n".toList).length = 14 from by decide,
      show ("INFO:f.cc:10:".toList).length = 13 from by decide,
      show (['\n'] : List Char).length = 1 from rfl] at hlen
    omega

/-- C4: streaming a 32-bit or 64-bit integer appends its full decimal text.
This holds for 32-bit widths (shown here for INT_MIN), but fails for
64-bit values whose decimal text has 20 characters: `snprintf` into
`char temp[20]` truncates to 19 characters plus a terminating NUL yet
returns 20, and `append(temp, ret)` then copies 19 digits plus an
embedded NUL byte instead of the 20-character decimal representation.
Evaluated here at ULLONG_MAX = 18446744073709551615. -/
theorem claim_C4 :
    ((LogStream.init "f.cc".toList 10 LOG_INFO).streamInt (-2147483648)).mSize = 11 ∧
    ((LogStream.init "f.cc".toList 10 LOG_INFO).streamInt (-2147483648)).mString.take 11 =
      "-2147483648".toList ∧
    ((LogStream.init "f.cc".toList 10 LOG_INFO).streamULongLong
      18446744073709551615).mSize = 20 ∧
    ((LogStream.init "f.cc".toList 10 LOG_INFO).streamULongLong
      18446744073709551615).mString.take 20 =
      "1844674407370955161".toList ++ [nullChar] ∧
    natDecimal 18446744073709551615 = "18446744073709551615".toList ∧
    "1844674407370955161".toList ++ [nullChar] ≠ "18446744073709551615".toList := by
  refine ⟨by decide, by decide, by decide, by decide, by decide, by decide⟩

/-- C5: printable ASCII characters (32-126) are appended verbatim and
non-printable ones as a backslash-x-HH escape of the byte value.  This
holds for bytes 0-31 and 127 (shown for byte 0x01 and for 'A'), but for
bytes 128-255 — negative values of the signed `char` — the `%02x`
conversion receives the sign-extended integer promotion (0xffffff80 for
byte 0x80) and the 5-byte buffer truncates it, so the code appends
"\xff" for every such byte instead of the byte's own two hex digits. -/
theorem claim_C5 :
    ((LogStream.init "f.cc".toList 10 LOG_INFO).streamChar 65).mSize = 1 ∧
    ((LogStream.init "f.cc".toList 10 LOG_INFO).streamChar 65).mString.take 1 = ['A'] ∧
    ((LogStream.init "f.cc".toList 10 LOG_INFO).streamChar 1).mSize = 4 ∧
    ((LogStream.init "f.cc".toList 10 LOG_INFO).streamChar 1).mString.take 4 =
      "\\x01".toList ∧
    ((LogStream.init "f.cc".toList 10 LOG_INFO).streamChar (-128)).mSize = 4 ∧
    ((LogStream.init "f.cc".toList 10 LOG_INFO).streamChar (-128)).mString.take 4 =
      "\\xff".toList ∧
    "\\xff".toList ≠ "\\x80".toList := by
  refine ⟨by decide, by decide, by decide, by decide, by decide, by decide, by decide⟩

/-- C6: an errno-decorated record captured with error code e appends, at
cleanup, the literal "Error message: " followed by the platform's
description of e, then dispatches the record, and leaves the ambient
errno equal to e again even if the intermediate library calls
(`strerror`, the dispatch itself) mutated it. -/
theorem claim_C6 (strerror : Int → List Char)
    (strerrorEffect dispatchEffect : Int → Int) (gLogOutput : Option Nat)
    (em : ErrnoLogMessage) (acc : List Char) (errno0 : Int)
    (hwf : em.mStream.wf acc) (hnul : nullChar ∉ strerror em.mErrno)
    (hlen : (strerror em.mErrno).length ≤ 2147483647) :
    (em.destruct strerror strerrorEffect dispatchEffect gLogOutput errno0).2 =
      em.mErrno ∧
    ∃ s : LogStream,
      (em.destruct strerror strerrorEffect dispatchEffect gLogOutput errno0).1 =
        logMessage gLogOutput s.mParams s.mString s.mSize ∧
      s.mParams = em.mStream.mParams ∧
      s.mSize = acc.length + 15 + (strerror em.mErrno).length ∧
      s.mString.take s.mSize = acc ++ "Error message: ".toList ++ strerror em.mErrno := by
  have h1 : (em.mStream.appendCStr (some "Error message: ".toList)).wf
      (acc ++ "Error message: ".toList) :=
    LogStream.wf_appendCStr hwf (by decide)
  have h2 : ((em.mStream.appendCStr (some "Error message: ".toList)).appendCStr
      (some (strerror em.mErrno))).wf
      ((acc ++ "Error message: ".toList) ++ strerror em.mErrno) :=
    LogStream.wf_appendCStr h1 hlen
  obtain ⟨hsz, htake⟩ := LogStream.wf_take h2
  refine ⟨rfl, (em.mStream.appendCStr (some "Error message: ".toList)).appendCStr
    (some (strerror em.mErrno)), rfl, ?_, ?_, ?_⟩
  · rw [LogStream.appendCStr_mParams, LogStream.appendCStr_mParams]
  · rw [hsz]
    have hd : ("Error message: ".toList).length = 15 := by decide
    simp only [List.length_append, hd]
  · rw [htake, List.append_assoc]

/-- Witness for C6: a fresh record on file "f.cc" line 10 severity ERROR
capturing errno 2, with a concrete description string. -/
theorem claim_C6_witness :
    ((ErrnoLogMessage.mk (LogStream.init "f.cc".toList 10 2) 2).destruct
        (fun _ => "No such file or directory".toList) (fun _ => 0) (fun _ => 0)
        none 2).2 = 2 ∧
    ∃ s : LogStream,
      ((ErrnoLogMessage.mk (LogStream.init "f.cc".toList 10 2) 2).destruct
          (fun _ => "No such file or directory".toList) (fun _ => 0) (fun _ => 0)
          none 2).1 = logMessage none s.mParams s.mString s.mSize ∧
      s.mParams = LogParams.mk "f.cc".toList 10 2 ∧
      s.mSize = 40 ∧
      s.mString.take s.mSize =
        "Error message: No such file or directory".toList := by
  have h := claim_C6 (fun _ => "No such file or directory".toList) (fun _ => 0)
    (fun _ => 0) none (ErrnoLogMessage.mk (LogStream.init "f.cc".toList 10 2) 2)
    [] 2 (LogStream.wf_init "f.cc".toList 10 2) (by decide) (by decide)
  obtain ⟨he, s, hout, hpar, hsz, htake⟩ := h
  refine ⟨he, s, hout, hpar, by simpa using hsz, ?_⟩
  rw [htake]
  decide

end AndroidBaseLog
